import Mathlib

/-!
Shallow embedding of the `BigQueryDbAdapter` class from
`moleculer-db-adapter-bigquery` (source: `src/unnamed/part_000`).

The adapter translates a loose filter DSL (query / search / searchFields /
sort / limit / offset) into SQL via a knex query builder, routes every call
through a per-request tenant context stored under the parameter key
`adapter_private_context`, and submits the SQL as BigQuery jobs.

The embedding keeps the source's structure: JS values are `JValue`, JS
objects are association lists with JS object semantics (first-match lookup,
update-in-place-or-append assignment), knex builder chains become operations
on the `QB` record, and each public adapter operation is a function from a
configuration, a table state and a parameter payload to an `Except` result
that also reports the submitted jobs in order.
-/

namespace BQAdapter

/-- A JavaScript value, as the adapter's loosely typed filters carry them.
`null` also stands for JS `undefined` where the two are not distinguished
by the source (the source only ever tests `== null` / truthiness). -/
inductive JValue where
  | null
  | num (n : Int)
  | str (s : String)
  | boolean (b : Bool)
  | arr (xs : List JValue)
  | obj (fields : List (String × JValue))
deriving Repr

/-- A JS object: ordered association list of string keys to values. -/
abbrev JObj := List (String × JValue)

/-- Scalar equality, as the engine compares values in an equality WHERE
condition.  Non-scalar operands (arrays / objects) never compare equal:
BigQuery equality is only defined on comparable scalar types, and no
adapter code path compares composites. -/
def beqJV : JValue → JValue → Bool
  | .null, .null => true
  | .num a, .num b => a == b
  | .str a, .str b => a == b
  | .boolean a, .boolean b => a == b
  | _, _ => false

/-- Association-list lookup: property read `o[k]`, first binding wins (a
JS object has unique keys, so on the lists the adapter builds this is
exact).  Absent key gives `none` (JS `undefined`). -/
def alookup {β : Type} : List (String × β) → String → Option β
  | [], _ => none
  | kv :: rest, k => if kv.1 == k then some kv.2 else alookup rest k

/-- Property write `o[k] = v` / `Object.assign(o, \x7b [k]: v \x7d)`:
update the first binding in place when the key exists, append the binding
otherwise. -/
def aset {β : Type} : List (String × β) → String → β → List (String × β)
  | [], k, v => [(k, v)]
  | kv :: rest, k, v => if kv.1 == k then (k, v) :: rest else kv :: aset rest k v

/-- Property delete `delete o[k]`. -/
def aremove {β : Type} : List (String × β) → String → List (String × β)
  | [], _ => []
  | kv :: rest, k => if kv.1 == k then aremove rest k else kv :: aremove rest k

/-- Property read on a JS object. -/
def getKey (o : JObj) (k : String) : Option JValue := alookup o k

/-- Property write on a JS object. -/
def setKey (o : JObj) (k : String) (v : JValue) : JObj := aset o k v

/-- Property delete on a JS object. -/
def removeKey (o : JObj) (k : String) : JObj := aremove o k

/-- JS truthiness of a value (`if (x)`), used by the source on
`whereObjectCopy.id`, `params.query`, `params.sort`, `params.searchFields`. -/
def truthy : JValue → Bool
  | .null => false
  | .num n => n != 0
  | .str s => s != ""
  | .boolean b => b
  | .arr _ => true
  | .obj _ => true

/-- Truthiness of a possibly-absent property. -/
def truthyOpt : Option JValue → Bool
  | none => false
  | some v => truthy v

/-- The per-request tenant context (`BigQueryContext` in `src/types`). -/
structure BigQueryContext where
  org : String
  impact : String
  tableName : Option String
  region : String
deriving Repr, DecidableEq

/-- A value stored in a call's parameter payload: either an ordinary JS
value or the tenant context object attached by the upstream hook (the
source types the carrier slot as `BigQueryContext`). -/
inductive PValue where
  | jv (x : JValue)
  | ctxv (c : BigQueryContext)
deriving Repr

/-- A call's parameter payload. -/
abbrev Params := List (String × PValue)

/-- The parameter key under which the hook smuggles the tenant context. -/
def contextKey : String := "adapter_private_context"

/-- Read the context carrier from the payload, `none` when the carrier is
absent (JS `undefined`) — the source's `context == null` branch. -/
def lookupCtx (p : Params) : Option BigQueryContext :=
  match alookup p contextKey with
  | some (PValue.ctxv c) => some c
  | _ => none

/-- Statement `delete params.adapter_private_context`. -/
def stripCtx (p : Params) : Params :=
  aremove p contextKey

/-- Ordinary-value property read on a payload. -/
def getParam (p : Params) (k : String) : Option JValue :=
  match alookup p k with
  | some (PValue.jv x) => some x
  | _ => none

/-- View a (context-stripped) payload as a plain JS object, dropping any
context carrier still present. -/
def paramsToJObj (p : Params) : JObj :=
  p.filterMap (fun kv => match kv.2 with
    | .jv x => some (kv.1, x)
    | .ctxv _ => none)

/-- The adapter configuration (`bigQueryConfig` / `BigQueryDbAdapterOptions`).
`getIdKey` and `getRegion` are async in the source; their resolved values
are embedded directly.  `getTableName` stays a function of the context. -/
structure AdapterConfig where
  getTableName : BigQueryContext → String
  getIdKey : String
  queryWrapper : Option (String → String → String)
  queryBlacklist : Option (List String)
  showLogs : Bool

/-- Errors an adapter call can raise.  `missingContext` is the
`MoleculerError` thrown when no context is attached; `typeError` models a
JavaScript `TypeError` from dereferencing `undefined`. -/
inductive AdapterError where
  | missingContext
  | typeError
deriving Repr, DecidableEq

/-! ### The knex query-builder chain as an AST -/

/-- One WHERE condition appended by a builder call.  `like` stores the
search term; the source always builds the pattern percent-term-percent,
i.e. a containment test. -/
inductive WhereCond where
  | eq (col : String) (v : JValue)
  | like (col : String) (term : String)
  | inList (col : String) (vs : List JValue)
deriving Repr

/-- The statement kind the builder chain ends in. -/
inductive QBMode where
  | select
  | del
  | update (set : JObj)
  | insertRows (rows : List JObj)
deriving Repr

/-- A knex builder chain: the table plus the accumulated clauses.  Each
WHERE entry records whether it was attached with `orWhere` (`true`) or
`where` (`false`); the first entry's flag is irrelevant when rendering. -/
structure QB where
  table : String
  mode : QBMode := .select
  wheres : List (Bool × WhereCond) := []
  orders : List (String × Bool) := []
  lim : Option Int := none
  off : Option Int := none
  cnt : Option String := none
deriving Repr

/-- Call `bq(tableName)`. -/
def qbInit (t : String) : QB := { table := t }

/-- Call `.where(obj)`: appends one AND-attached equality clause per key. -/
def whereObj (q : QB) (o : JObj) : QB :=
  { q with wheres := q.wheres ++ o.map (fun kv => (false, WhereCond.eq kv.1 kv.2)) }

/-- Call `.orWhere(col, "like", pattern)` with pattern percent-term-percent. -/
def orWhereLike (q : QB) (col : String) (term : String) : QB :=
  { q with wheres := q.wheres ++ [(true, WhereCond.like col term)] }

/-- Call `.whereIn(col, vs)`. -/
def whereIn (q : QB) (col : String) (vs : List JValue) : QB :=
  { q with wheres := q.wheres ++ [(false, WhereCond.inList col vs)] }

/-- Call `.orderBy(col, dir)`; `asc = true` for ascending. -/
def orderBy (q : QB) (col : String) (asc : Bool) : QB :=
  { q with orders := q.orders ++ [(col, asc)] }

/-- Call `.limit(n)`. -/
def setLimit (q : QB) (n : Int) : QB := { q with lim := some n }

/-- Call `.offset(n)`. -/
def setOffset (q : QB) (n : Int) : QB := { q with off := some n }

/-- Call `.count(col)`. -/
def countCol (q : QB) (col : String) : QB := { q with cnt := some col }

/-- Call `.del()`. -/
def setDel (q : QB) : QB := { q with mode := .del }

/-- Call `.update(obj)`. -/
def setUpdate (q : QB) (o : JObj) : QB := { q with mode := .update o }

/-- Call `.insert(rows)`. -/
def setInsert (q : QB) (rows : List JObj) : QB := { q with mode := .insertRows rows }

/-- Columns of the equality conditions of a WHERE list. -/
def eqCols (ws : List (Bool × WhereCond)) : List String :=
  ws.filterMap (fun bc => match bc.2 with
    | .eq c _ => some c
    | _ => none)

/-- Every column a WHERE list references, of any condition kind. -/
def whereCols (ws : List (Bool × WhereCond)) : List String :=
  ws.map (fun bc => match bc.2 with
    | .eq c _ => c
    | .like c _ => c
    | .inList c _ => c)

/-! ### `transformSort` (source lines 618-644)

JS string primitives used by the source (`replace(/,/, " ")` — first
occurrence only, no `g` flag — `split(" ")`, `startsWith("-")`,
`slice(1)`) are embedded on character lists. -/

/-- JS `s.replace(/a/, b)` on characters: replace the first occurrence only. -/
def replaceFirstCh (a b : Char) : List Char → List Char
  | [] => []
  | c :: rest => if c = a then b :: rest else c :: replaceFirstCh a b rest

/-- JS `s.split(sep)` for a single-character separator: split at every
occurrence, keeping empty segments, as JS `String.split` does. -/
def splitCh (sep : Char) : List Char → List (List Char)
  | [] => [[]]
  | c :: rest =>
    if c = sep then [] :: splitCh sep rest
    else
      match splitCh sep rest with
      | t :: ts => (c :: t) :: ts
      | [] => [[c]]

/-- Pipeline `sort.replace(/,/, " ").split(" ")` as the source applies it to a
string sort parameter. -/
def sortTokens (s : String) : List String :=
  (splitCh ' ' (replaceFirstCh ',' ' ' s.data)).map (fun l => String.mk l)

/-- The `String | String[] | Object` shape of `transformSort`'s parameter.
The object shape maps column names to signed numbers, in key order. -/
inductive SortParam where
  | str (s : String)
  | arrS (ts : List String)
  | objS (o : List (String × Int))
deriving Repr

/-- JS `s.startsWith("-")` on the character list. -/
def jsStartsWithDash (t : String) : Bool :=
  match t.data with
  | c :: _ => c == '-'
  | [] => false

/-- JS `s.slice(1)`: drop the first character. -/
def jsSlice1 (t : String) : String := String.mk (t.data.drop 1)

/-- The array branch of `transformSort`: build the signed object by JS
assignment `sortObj[k] = v`, with a leading dash meaning descending
(`-1`, on the dash-stripped name) and anything else ascending (`1`). -/
def tokensToSortObj (ts : List String) : List (String × Int) :=
  ts.foldl (fun acc t =>
    if jsStartsWithDash t then aset acc (jsSlice1 t) (-1)
    else aset acc t 1) []

/-- The (column, signed) pair one token contributes to the sort object. -/
def encTok (t : String) : String × Int :=
  if jsStartsWithDash t then (jsSlice1 t, -1) else (t, 1)

/-- The object branch: `q.orderBy(key, sort[key] > 0 ? "asc" : "desc")`
for every key in order. -/
def applySortObj (q : QB) (o : List (String × Int)) : QB :=
  o.foldl (fun q kv => orderBy q kv.1 (kv.2 > 0)) q

/-- Method `transformSort` (source lines 618-644): a string is first-comma
replaced and space-split into tokens; a token array is folded into a
signed object; a signed object is applied as ORDER BY clauses. -/
def transformSort (q : QB) (paramSort : SortParam) : QB :=
  match paramSort with
  | .str s => applySortObj q (tokensToSortObj (sortTokens s))
  | .arrS ts => applySortObj q (tokensToSortObj ts)
  | .objS o => applySortObj q o

/-! ### Filter normalization and `createCursor` (source lines 533-609) -/

/-- Spread `\x7b ...value \x7d` — the object spread the source applies to
`params.query` before inspecting it.  Spreading `undefined`/`null`,
numbers and booleans yields an empty object; spreading a string or an
array yields index-keyed properties, as in JavaScript. -/
def toObjFields : Option JValue → JObj
  | some (.obj o) => o
  | some (.str s) => (s.data.enum.map (fun ic => (toString ic.1, JValue.str (String.mk [ic.2]))))
  | some (.arr xs) => (xs.enum.map (fun ix => (toString ix.1, ix.2)))
  | _ => []

/-- Method `migrateIdParamToPrimaryKey` (source lines 533-545): copy a truthy
`id` value onto the configured primary-key column via `Object.assign`,
then delete every blacklisted key.  The `id` key itself is NOT deleted. -/
def migrateIdParamToPrimaryKey (cfg : AdapterConfig) (whereObject : JObj) : JObj :=
  let whereObjectCopy :=
    match getKey whereObject "id" with
    | some v => if truthy v then setKey whereObject cfg.getIdKey v else whereObject
    | none => whereObject
  (cfg.queryBlacklist.getD []).foldl (fun acc k => removeKey acc k) whereObjectCopy

/-- The `fields` computed in the search branch: a string `searchFields`
is space-split, an array is used as is (its entries are column-name
strings in every reachable call). -/
def searchFieldsOf (p : Params) : List String :=
  match getParam p "searchFields" with
  | some (.str s) => (splitCh ' ' s.data).map (fun l => String.mk l)
  | some (.arr xs) => xs.filterMap (fun v => match v with
      | .str t => some t
      | _ => none)
  | _ => []

/-- Whether `createCursor` takes the full-text-search branch:
`_.isString(params.search) && params.search !== ""`. -/
def searchTermOf (p : Params) : Option String :=
  match getParam p "search" with
  | some (.str s) => if s ≠ "" then some s else none
  | _ => none

/-- The sort parameter as `transformSort` receives it, when `params.sort`
is truthy and of one of the three accepted shapes. -/
def sortParamOf (p : Params) : Option SortParam :=
  match getParam p "sort" with
  | some (.str s) => if truthy (.str s) then some (.str s) else none
  | some (.arr xs) => some (.arrS (xs.filterMap (fun v => match v with
      | .str t => some t
      | _ => none)))
  | some (.obj o) => some (.objS (o.filterMap (fun kv => match kv.2 with
      | .num n => some (kv.1, n)
      | _ => none)))
  | _ => none

/-- Test `_.isNumber(v) && v > 0`, yielding the accepted positive number. -/
def posNumOf (v : Option JValue) : Option Int :=
  match v with
  | some (.num n) => if n > 0 then some n else none
  | _ => none

/-- The WHERE clauses `createCursor` accumulates on the builder (the part
of source lines 550-581 that feeds `.where` / `.orWhere`), for a
context-stripped payload `p`. -/
def cursorWheres (cfg : AdapterConfig) (p : Params) : List (Bool × WhereCond) :=
  if p.length > 0 then
    match searchTermOf p with
    | some term =>
      let eqPart :=
        if truthyOpt (getParam p "query") then
          (migrateIdParamToPrimaryKey cfg (toObjFields (getParam p "query"))).map
            (fun kv => (false, WhereCond.eq kv.1 kv.2))
        else []
      eqPart ++ (searchFieldsOf p).map (fun f => (true, WhereCond.like f term))
    | none =>
      (migrateIdParamToPrimaryKey cfg (toObjFields (getParam p "query"))).map
        (fun kv => (false, WhereCond.eq kv.1 kv.2))
  else []

/-- The ORDER BY clauses `createCursor` accumulates (both branches run
`transformSort` when `params.sort` is truthy). -/
def cursorOrders (p : Params) : List (String × Bool) :=
  if p.length > 0 then
    match sortParamOf p with
    | some sp => (transformSort (qbInit "") sp).orders
    | none => []
  else []

/-- The OFFSET accepted by `createCursor` (source lines 583-586). -/
def cursorOff (p : Params) : Option Int :=
  if p.length > 0 then posNumOf (getParam p "offset") else none

/-- The LIMIT accepted by `createCursor` (source lines 588-591). -/
def cursorLim (p : Params) : Option Int :=
  if p.length > 0 then posNumOf (getParam p "limit") else none

/-- The full builder state `createCursor` submits, for a context-stripped
payload and a resolved table name.  In counting mode the projection is
`count(primaryKey)`; otherwise the trailing `.where(\x7b\x7d)` of the
source adds nothing. -/
def buildCursorQB (cfg : AdapterConfig) (tableName : String) (p : Params)
    (isCounting : Bool) : QB :=
  { table := tableName
    mode := .select
    wheres := cursorWheres cfg p
    orders := cursorOrders p
    off := cursorOff p
    lim := cursorLim p
    cnt := if isCounting then some cfg.getIdKey else none }

/-! ### `retrieveContext` (source lines 123-159) -/

/-- Method `retrieveContext` on a single-object payload: fail when no context is
attached, otherwise resolve the table name, strip the carrier from the
payload and return the enriched context with the stripped payload. -/
def retrieveContext (cfg : AdapterConfig) (params : Params) :
    Except AdapterError (BigQueryContext × Params) :=
  match lookupCtx params with
  | none => .error .missingContext
  | some c =>
    .ok ({ c with tableName := some (cfg.getTableName c) }, stripCtx params)

/-- The `params.map(...)` of the array branch: resolve and strip every
element's context in order, failing at the first element with none
attached (the thrown error aborts the whole map). -/
def ctxMapAll : List Params → Option (List (BigQueryContext × Params))
  | [] => some []
  | p :: rest =>
    match lookupCtx p with
    | none => none
    | some c => (ctxMapAll rest).map (fun l => (c, stripCtx p) :: l)

/-- Method `retrieveContext` on an array payload (the `insertMany` path): each
element must carry a context or the whole call fails; the carrier is
stripped from every element; `[...].shift()` returns the first enriched
context, or `undefined` for an empty array. -/
def retrieveContextList (cfg : AdapterConfig) (paramsList : List Params) :
    Except AdapterError (Option BigQueryContext × List Params) :=
  match ctxMapAll paramsList with
  | none => .error .missingContext
  | some pairs =>
    .ok ((pairs.head?).map (fun cp => { cp.1 with tableName := some (cfg.getTableName cp.1) }),
         pairs.map (fun cp => cp.2))

/-! ### The external warehouse engine

The engine itself is not part of this repository (spec section 6 treats it
as an external collaborator that "accepts a SQL string plus a
region/location hint ... returns a sequence of row mappings").  Its
behaviour is therefore modelled from the spec. -/

/-- A table: the engine's row mappings, in storage order. -/
abbrev Table := List JObj

/-- Pattern containment for percent-wrapped LIKE terms: does `need` occur inside the haystack? -/
def containsSub (need : List Char) : List Char → Bool
  | [] => need.isEmpty
  | c :: rest => need.isPrefixOf (c :: rest) || containsSub need rest

/-- Evaluate one WHERE condition on a row.  A missing column (SQL NULL)
satisfies nothing; LIKE applies only to string values. -/
def evalCond (r : JObj) : WhereCond → Bool
  | .eq c v =>
    match getKey r c with
    | some w => beqJV w v
    | none => false
  | .like c term =>
    match getKey r c with
    | some (.str s) => containsSub term.data s.data
    | _ => false
  | .inList c vs =>
    match getKey r c with
    | some w => vs.any (fun v => beqJV w v)
    | none => false

/-- Evaluate the tail of a rendered WHERE list with SQL precedence (AND
binds tighter than OR), `cur` being the value of the current conjunct
chain so far. -/
def evalWheresGo (r : JObj) (cur : Bool) : List (Bool × WhereCond) → Bool
  | [] => cur
  | (isOr, c) :: rest =>
    if isOr then cur || evalWheresGo r (evalCond r c) rest
    else evalWheresGo r (cur && evalCond r c) rest

/-- Evaluate a WHERE list on a row; an empty list keeps every row. -/
def evalWheres (r : JObj) : List (Bool × WhereCond) → Bool
  | [] => true
  | (_, c) :: rest => evalWheresGo r (evalCond r c) rest

/-- A total comparison on scalar values, for ORDER BY. -/
def cmpJV (a b : JValue) : Ordering :=
  match a, b with
  | .num x, .num y => compare x y
  | .str x, .str y => compare x y
  | .boolean x, .boolean y => compare x y
  | x, y =>
    let rank : JValue → Nat := fun v =>
      match v with
      | .null => 0
      | .boolean _ => 1
      | .num _ => 2
      | .str _ => 3
      | .arr _ => 4
      | .obj _ => 5
    compare (rank x) (rank y)

/-- Compare two rows under an ORDER BY column list (missing values sort
as NULL; a descending column flips the comparison). -/
def cmpRows (ords : List (String × Bool)) (r1 r2 : JObj) : Ordering :=
  match ords with
  | [] => .eq
  | (col, asc) :: rest =>
    let v1 := (getKey r1 col).getD .null
    let v2 := (getKey r2 col).getD .null
    let c := if asc then cmpJV v1 v2 else cmpJV v2 v1
    match c with
    | .eq => cmpRows rest r1 r2
    | o => o

/-- Stable insertion into a list sorted by `cmpRows`. -/
def orderedInsert (ords : List (String × Bool)) (r : JObj) : List JObj → List JObj
  | [] => [r]
  | s :: rest =>
    if cmpRows ords r s = .gt then s :: orderedInsert ords r rest
    else r :: s :: rest

/-- Stable insertion sort by `cmpRows`. -/
def sortRows (ords : List (String × Bool)) : List JObj → List JObj
  | [] => []
  | r :: rest => orderedInsert ords r (sortRows ords rest)

/-- ORDER BY: the identity when no order columns were given. -/
def applySort (ords : List (String × Bool)) (rows : List JObj) : List JObj :=
  if ords.isEmpty then rows else sortRows ords rows

/-- OFFSET k drops the first k output rows. -/
def applyOffset (o : Option Int) (rows : List JObj) : List JObj :=
  match o with
  | none => rows
  | some k => rows.drop k.toNat

/-- LIMIT n keeps at most n output rows. -/
def applyLimit (l : Option Int) (rows : List JObj) : List JObj :=
  match l with
  | none => rows
  | some n => rows.take n.toNat

/-- UPDATE ... SET: assign every key of the SET object on the row. -/
def applySet (set : JObj) (r : JObj) : JObj :=
  set.foldl (fun acc kv => setKey acc kv.1 kv.2) r

/-- Modelled from the spec (section 6, the external warehouse engine, and
section 4.3's description of clause application): execute one statement
against a table, returning the new table and the statement's result rows.
A `count` projection yields one row holding the match count under the
synthetic column `f0_`, with OFFSET/LIMIT applied to that aggregate
output; DML statements return no rows. -/
def execStmt (tbl : Table) (q : QB) : Table × List JObj :=
  match q.mode with
  | .select =>
    let hits := tbl.filter (fun r => evalWheres r q.wheres)
    match q.cnt with
    | some _ =>
      let outRows : List JObj := [[("f0_", JValue.num hits.length)]]
      (tbl, applyLimit q.lim (applyOffset q.off outRows))
    | none =>
      (tbl, applyLimit q.lim (applyOffset q.off (applySort q.orders hits)))
  | .del => (tbl.filter (fun r => !(evalWheres r q.wheres)), [])
  | .update set =>
    (tbl.map (fun r => if evalWheres r q.wheres then applySet set r else r), [])
  | .insertRows rows => (tbl ++ rows, [])

/-- Modelled from the spec (section 4.4): a job executes its statements in
order and returns the result set of the LAST statement. -/
def execJob (tbl : Table) (stmts : List QB) : Table × List JObj :=
  stmts.foldl (fun acc q => execStmt acc.1 q) (tbl, [])

/-! ### The adapter's public operations (source lines 177-609)

Each operation returns the submitted jobs in submission order (a job is
the list of statements in one submission body), the post-call table, and
the operation's JS return value. -/

/-- The result shape of an adapter call: submitted jobs, table after the
call, and the value returned to the caller. -/
abbrev OpResult (α : Type) := Except AdapterError (List (List QB) × Table × α)

/-- The table name string the operations interpolate from the enriched
context. -/
def tableNameOf (ctx : BigQueryContext) : String := ctx.tableName.getD ""

/-- Method `createCursor` up to the raw engine result (source lines 547-607):
context retrieval, filter shaping, one submitted job.  The counting
projection `result.shift()["f0_"]` of line 608 is performed by `count`. -/
def createCursorRows (cfg : AdapterConfig) (tbl : Table) (params : Params)
    (isCounting : Bool) : OpResult (List JObj) :=
  match retrieveContext cfg params with
  | .error e => .error e
  | .ok (ctx, p) =>
    let q := buildCursorQB cfg (tableNameOf ctx) p isCounting
    let (tbl1, rows) := execJob tbl [q]
    .ok ([[q]], tbl1, rows)

/-- Operation `find(filters)` (source lines 177-179). -/
def find (cfg : AdapterConfig) (tbl : Table) (filters : Params) : OpResult (List JObj) :=
  createCursorRows cfg tbl filters false

/-- Operation `count(filters)` (source lines 268-270 with line 608's projection):
`result.shift()["f0_"]` — dereferencing the first result row, a JS
`TypeError` when the result set is empty. -/
def count (cfg : AdapterConfig) (tbl : Table) (filters : Params) :
    Except AdapterError (List (List QB) × Table × JValue) :=
  match createCursorRows cfg tbl filters true with
  | .error e => .error e
  | .ok (jobs, tbl1, rows) =>
    match rows.head? with
    | none => .error .typeError
    | some row => .ok (jobs, tbl1, (getKey row "f0_").getD JValue.null)

/-- Operation `findOne(query)` (source lines 194-206): the raw (context-stripped)
query object as WHERE, LIMIT 1, first row or `undefined`. -/
def findOne (cfg : AdapterConfig) (tbl : Table) (query : Params) : OpResult (Option JObj) :=
  match retrieveContext cfg query with
  | .error e => .error e
  | .ok (ctx, q') =>
    let qb := setLimit (whereObj (qbInit (tableNameOf ctx)) (paramsToJObj q')) 1
    let (tbl1, rows) := execJob tbl [qb]
    .ok ([[qb]], tbl1, rows.head?)

/-- Operation `findById(context, id)` (source lines 216-230). -/
def findById (cfg : AdapterConfig) (tbl : Table) (context : Params) (id : String) :
    OpResult (Option JObj) :=
  match retrieveContext cfg context with
  | .error e => .error e
  | .ok (ctx, _) =>
    let qb := setLimit (whereObj (qbInit (tableNameOf ctx)) [(cfg.getIdKey, .str id)]) 1
    let (tbl1, rows) := execJob tbl [qb]
    .ok ([[qb]], tbl1, rows.head?)

/-- Operation `findByIds(context, idList)` (source lines 240-253). -/
def findByIds (cfg : AdapterConfig) (tbl : Table) (context : Params)
    (idList : List String) : OpResult (List JObj) :=
  match retrieveContext cfg context with
  | .error e => .error e
  | .ok (ctx, _) =>
    let qb := whereIn (qbInit (tableNameOf ctx)) cfg.getIdKey (idList.map (fun i => .str i))
    let (tbl1, rows) := execJob tbl [qb]
    .ok ([[qb]], tbl1, rows)

/-- Operation `insert(entity)` (source lines 280-303): one job holding the INSERT of
the primary-key field followed by a SELECT of the same key. -/
def insert (cfg : AdapterConfig) (tbl : Table) (entity : Params) : OpResult (List JObj) :=
  match retrieveContext cfg entity with
  | .error e => .error e
  | .ok (ctx, e') =>
    let eo := paramsToJObj e'
    let keyVal := (getKey eo cfg.getIdKey).getD .null
    let ins := setInsert (qbInit (tableNameOf ctx)) [[(cfg.getIdKey, keyVal)]]
    let sel := whereIn (qbInit (tableNameOf ctx)) cfg.getIdKey [keyVal]
    let (tbl1, rows) := execJob tbl [ins, sel]
    .ok ([[ins, sel]], tbl1, rows)

/-- Operation `insertMany(entities)` (source lines 314-342): array context
retrieval, then one job holding the bulk INSERT followed by a SELECT over
the inserted primary-key values.  An empty entity list leaves the shifted
context `undefined`, tripping the explicit null re-check. -/
def insertMany (cfg : AdapterConfig) (tbl : Table) (entities : List Params) :
    OpResult (List JObj) :=
  match retrieveContextList cfg entities with
  | .error e => .error e
  | .ok (none, _) => .error .missingContext
  | .ok (some ctx, stripped) =>
    let rows := stripped.map paramsToJObj
    let ins := setInsert (qbInit (tableNameOf ctx)) rows
    let sel := whereIn (qbInit (tableNameOf ctx)) cfg.getIdKey
      (rows.map (fun r => (getKey r cfg.getIdKey).getD .null))
    let (tbl1, out) := execJob tbl [ins, sel]
    .ok ([[ins, sel]], tbl1, out)

/-- Operation `updateMany(where, update)` (source lines 353-377): context lives in
the update payload; one job holding the UPDATE then a SELECT with the
same WHERE. -/
def updateMany (cfg : AdapterConfig) (tbl : Table) (whereO : JObj) (update : Params) :
    OpResult (List JObj) :=
  match retrieveContext cfg update with
  | .error e => .error e
  | .ok (ctx, u) =>
    let upd := setUpdate (whereObj (qbInit (tableNameOf ctx)) whereO) (paramsToJObj u)
    let sel := whereObj (qbInit (tableNameOf ctx)) whereO
    let (tbl1, out) := execJob tbl [upd, sel]
    .ok ([[upd, sel]], tbl1, out)

/-- Operation `updateById(id, update)` (source lines 388-420). -/
def updateById (cfg : AdapterConfig) (tbl : Table) (id : String) (update : Params) :
    OpResult (List JObj) :=
  match retrieveContext cfg update with
  | .error e => .error e
  | .ok (ctx, u) =>
    let whereO : JObj := [(cfg.getIdKey, .str id)]
    let upd := setUpdate (whereObj (qbInit (tableNameOf ctx)) whereO) (paramsToJObj u)
    let sel := whereObj (qbInit (tableNameOf ctx)) whereO
    let (tbl1, out) := execJob tbl [upd, sel]
    .ok ([[upd, sel]], tbl1, out)

/-- Operation `removeMany(where)` (source lines 430-458): the pre-image SELECT is
submitted as its own job, the DELETE with the same WHERE as a second job;
the pre-image rows are the returned result. -/
def removeMany (cfg : AdapterConfig) (tbl : Table) (whereP : Params) :
    OpResult (List JObj) :=
  match retrieveContext cfg whereP with
  | .error e => .error e
  | .ok (ctx, w) =>
    let wo := paramsToJObj w
    let preQ := whereObj (qbInit (tableNameOf ctx)) wo
    let delQ := setDel (whereObj (qbInit (tableNameOf ctx)) wo)
    let (tbl1, pre) := execJob tbl [preQ]
    let (tbl2, _) := execJob tbl1 [delQ]
    .ok ([[preQ], [delQ]], tbl2, pre)

/-- Operation `removeById(context, id)` (source lines 468-507): pre-image SELECT on
the primary-key equality (no LIMIT), then the DELETE, returning the
pre-image rows. -/
def removeById (cfg : AdapterConfig) (tbl : Table) (context : Params) (id : String) :
    OpResult (List JObj) :=
  match retrieveContext cfg context with
  | .error e => .error e
  | .ok (ctx, _) =>
    let whereO : JObj := [(cfg.getIdKey, .str id)]
    let preQ := whereObj (qbInit (tableNameOf ctx)) whereO
    let delQ := setDel (whereObj (qbInit (tableNameOf ctx)) whereO)
    let (tbl1, pre) := execJob tbl [preQ]
    let (tbl2, _) := execJob tbl1 [delQ]
    .ok ([[preQ], [delQ]], tbl2, pre)

/-! ### `formatQuery` and `query` at the SQL-string level
(source lines 181-185 and 736-761) -/

/-- The double-quote character. -/
def dqChar : Char := Char.ofNat 34

/-- The backtick character. -/
def btChar : Char := Char.ofNat 96

/-- The per-character identifier-quote rewrite: a double quote becomes a
backtick, everything else is untouched. -/
def fmtChar (c : Char) : Char :=
  if c = dqChar then btChar else c

/-- JS `query.replace(/"/g, ...)`: rewrite every double quote to a backtick. -/
def fmtChars (l : List Char) : List Char :=
  l.map fmtChar

/-- Method `formatQuery` (source lines 181-185), the identifier-quoting rewrite
applied to each knex-rendered statement (the `showLogs` logging inside it
echoes this pre-wrapper string). -/
def formatQuery (s : String) : String := String.mk (fmtChars s.data)

/-- What one submission records: the SQL string handed to the engine and
the SQL string written to the job-start log line. -/
structure SubmittedQuery where
  executed : String
  logged : String
deriving Repr, DecidableEq

/-- Method `query(query, queryOptions)` (source lines 736-761): the optional
`queryWrapper` is applied to the incoming SQL (with the location hint,
defaulting to US) and its output becomes the executed `options.query`;
the job-start log line interpolates the ORIGINAL `query` argument. -/
def runQuery (cfg : AdapterConfig) (q : String) (location : String) : SubmittedQuery :=
  let formattedQuery :=
    match cfg.queryWrapper with
    | some w => w q (if location = "" then "US" else location)
    | none => q
  { executed := formattedQuery, logged := q }

/-! ### Result projections and fixtures used by the verification -/

/-- The jobs an operation submitted (none when it failed). -/
def opJobs {α : Type} : OpResult α → List (List QB)
  | .ok t => t.1
  | .error _ => []

/-- The value an operation returned to its caller, when it succeeded. -/
def opRet {α : Type} : OpResult α → Option α
  | .ok t => some t.2.2
  | .error _ => none

/-- The rows a row-returning operation produced (empty when it failed). -/
def opRows : OpResult (List JObj) → List JObj
  | .ok t => t.2.2
  | .error _ => []

/-- The scalar `count` produced, as an `Except`. -/
def countValue (cfg : AdapterConfig) (tbl : Table) (filters : Params) :
    Except AdapterError JValue :=
  (count cfg tbl filters).map (fun t => t.2.2)

/-- Drop one top-level key from a payload (used to express "with
limit/offset removed" on a filter). -/
def removeParamKey (p : Params) (k : String) : Params :=
  aremove p k

/-- A filter with its pagination keys removed. -/
def sansPaging (p : Params) : Params :=
  removeParamKey (removeParamKey p "limit") "offset"

/-- A concrete configuration used by the concrete-input theorems:
primary key `userId`, denylist `secret`, table resolved from the impact
key. -/
def cfgEx : AdapterConfig :=
  { getTableName := fun c => "tbl_" ++ c.impact
    getIdKey := "userId"
    queryWrapper := none
    queryBlacklist := some ["secret"]
    showLogs := false }

/-- A concrete tenant context. -/
def ctxEx : BigQueryContext :=
  { org := "org1", impact := "imp1", tableName := none, region := "US" }

/-- The C1 scenario's filter payload:
query age 7, search term abc over fields name and tag. -/
def paramsC1 : Params :=
  [(contextKey, .ctxv ctxEx),
   ("query", .jv (.obj [("age", .num 7)])),
   ("search", .jv (.str "abc")),
   ("searchFields", .jv (.arr [.str "name", .str "tag"]))]

/-- Written from the spec's words (claim C1): the WHERE the spec asserts
for the scenario — the equality clause ANDed against the OR-group of the
two LIKE clauses. -/
def claimedC1Where (r : JObj) : Bool :=
  evalCond r (.eq "age" (.num 7)) &&
    (evalCond r (.like "name" "abc") || evalCond r (.like "tag" "abc"))

/-- A configuration whose rewrite hook appends an engine pragma. -/
def cfgW : AdapterConfig :=
  { cfgEx with queryWrapper := some (fun q _ => q ++ " OPT") }

/-- The example configuration without a denylist. -/
def cfgNoBl : AdapterConfig :=
  { cfgEx with queryBlacklist := none }

/-- A row matching the OR-combined WHERE the code builds for the C1
scenario but not the AND-combined WHERE the spec claims: wrong age, but a
name containing the search term. -/
def rowC1 : JObj := [("age", .num 5), ("name", .str "xxabcxx"), ("tag", .str "q")]

/-- Two distinct rows sharing the primary-key value X. -/
def rowA : JObj := [("userId", .str "X"), ("a", .num 1)]

/-- The second row with primary-key value X. -/
def rowB : JObj := [("userId", .str "X"), ("a", .num 2)]

/-- A payload carrying only the tenant context. -/
def ctxOnlyParams : Params := [(contextKey, .ctxv ctxEx)]

/-- A payload whose limit is zero and whose offset is a string. -/
def paramsC8 : Params :=
  [(contextKey, .ctxv ctxEx), ("limit", .jv (.num 0)), ("offset", .jv (.str "ten"))]

/-- The string token a logical (column, ascending) order entry denotes:
the column name, dash-prefixed when descending. -/
def sortToken (cb : String × Bool) : String :=
  if cb.2 then cb.1 else "-" ++ cb.1

/-- Join character-list tokens with single spaces. -/
def joinSpaceCh : List (List Char) → List Char
  | [] => []
  | [t] => t
  | t :: ts => t ++ ' ' :: joinSpaceCh ts

/-- Join string tokens with single spaces (the string sort shape). -/
def joinSpace (ts : List String) : String :=
  String.mk (joinSpaceCh (ts.map String.data))

/-! ### Basic lemmas about the JS-object operations -/

theorem alookup_aset_self {β : Type} (l : List (String × β)) (k : String) (v : β) :
    alookup (aset l k v) k = some v := by
  induction l with
  | nil => simp [aset, alookup]
  | cons kv rest ih =>
    by_cases hk : kv.1 = k
    · simp [aset, alookup, hk]
    · simp [aset, alookup, hk, ih]

theorem alookup_aset_ne {β : Type} (l : List (String × β)) {k k' : String}
    (h : k' ≠ k) (v : β) : alookup (aset l k v) k' = alookup l k' := by
  induction l with
  | nil => simp [aset, alookup, Ne.symm h]
  | cons kv rest ih =>
    simp only [aset]
    by_cases hk : kv.1 = k
    · simp [alookup, hk, Ne.symm h]
    · by_cases hk2 : kv.1 = k'
      · simp [alookup, hk, hk2, h]
      · simp [alookup, hk, hk2, ih]

theorem mem_aremove {β : Type} {l : List (String × β)} {k : String}
    {kv : String × β} (h : kv ∈ aremove l k) : kv ∈ l ∧ kv.1 ≠ k := by
  induction l with
  | nil => simp [aremove] at h
  | cons kv0 rest ih =>
    by_cases hk : kv0.1 = k
    · simp only [aremove, hk, if_pos rfl] at h
      have := ih (by simpa [hk] using h)
      exact ⟨List.mem_cons_of_mem _ this.1, this.2⟩
    · simp only [aremove] at h
      rw [if_neg (by simpa using hk)] at h
      rcases List.mem_cons.mp h with h1 | h2
      · exact ⟨by simp [h1], by simpa [h1] using hk⟩
      · have := ih h2
        exact ⟨List.mem_cons_of_mem _ this.1, this.2⟩

theorem alookup_aremove_ne {β : Type} (l : List (String × β)) {k k' : String}
    (h : k' ≠ k) : alookup (aremove l k) k' = alookup l k' := by
  induction l with
  | nil => rfl
  | cons kv rest ih =>
    simp only [aremove]
    by_cases hk : kv.1 = k
    · simp [alookup, hk, Ne.symm h, ih]
    · by_cases hk2 : kv.1 = k'
      · simp [alookup, hk, hk2, h]
      · simp [alookup, hk, hk2, ih]

theorem alookup_aremove_self {β : Type} (l : List (String × β)) (k : String) :
    alookup (aremove l k) k = none := by
  induction l with
  | nil => rfl
  | cons kv rest ih =>
    by_cases hk : kv.1 = k
    · simpa [aremove, hk] using ih
    · simp [aremove, alookup, hk, ih]

theorem mem_foldl_aremove {bl : List String} {o : JObj} {kv : String × JValue}
    (h : kv ∈ bl.foldl (fun acc k => removeKey acc k) o) : kv ∈ o := by
  induction bl generalizing o with
  | nil => simpa using h
  | cons k rest ih =>
    simp only [List.foldl_cons] at h
    exact (mem_aremove (ih h)).1

theorem keys_foldl_aremove_of_mem {bl : List String} {o : JObj} {k : String}
    (hk : k ∈ bl) {kv : String × JValue}
    (h : kv ∈ bl.foldl (fun acc k => removeKey acc k) o) : kv.1 ≠ k := by
  obtain ⟨s, t, rfl⟩ := List.append_of_mem hk
  rw [List.foldl_append, List.foldl_cons] at h
  exact (mem_aremove (mem_foldl_aremove h)).2

theorem getKey_foldl_aremove_ne {bl : List String} {o : JObj} {k : String}
    (hk : k ∉ bl) :
    getKey (bl.foldl (fun acc k => removeKey acc k) o) k = getKey o k := by
  induction bl generalizing o with
  | nil => rfl
  | cons k0 rest ih =>
    simp only [List.mem_cons, not_or] at hk
    rw [List.foldl_cons]
    calc getKey (List.foldl (fun acc k => removeKey acc k) (removeKey o k0) rest) k
        = getKey (removeKey o k0) k := ih hk.2
      _ = getKey o k := alookup_aremove_ne o hk.1

/-! ### Lemmas about WHERE-clause columns -/

theorem eqCols_append (a b : List (Bool × WhereCond)) :
    eqCols (a ++ b) = eqCols a ++ eqCols b := by
  simp [eqCols, List.filterMap_append]

theorem eqCols_eqmap (o : JObj) :
    eqCols (o.map (fun kv => (false, WhereCond.eq kv.1 kv.2))) = o.map Prod.fst := by
  induction o with
  | nil => rfl
  | cons kv rest ih => simpa [eqCols, List.filterMap_cons] using ih

theorem eqCols_likemap (fs : List String) (t : String) :
    eqCols (fs.map (fun f => (true, WhereCond.like f t))) = [] := by
  induction fs with
  | nil => rfl
  | cons f rest ih => simp [eqCols, List.filterMap_cons, ih]

theorem not_mem_keys_migrate (cfg : AdapterConfig) (o : JObj) {k : String}
    (hk : k ∈ cfg.queryBlacklist.getD []) :
    k ∉ (migrateIdParamToPrimaryKey cfg o).map Prod.fst := by
  intro hmem
  obtain ⟨kv, hkv, hfst⟩ := List.mem_map.mp hmem
  exact keys_foldl_aremove_of_mem hk hkv hfst

/-! ### Claim theorems -/

/-- Claim C10 (confirmed): the identifier-quoting rewrite (every double
quote becomes a backtick) is idempotent, and formatting a composed body
whose inner statement was already formatted yields the same SQL as a
single application over the raw composition. -/
theorem formatQuery_idempotent_and_composes :
    (∀ s : String, formatQuery (formatQuery s) = formatQuery s) ∧
    (∀ pre mid post : String,
      formatQuery (pre ++ formatQuery mid ++ post) = formatQuery (pre ++ mid ++ post)) := by
  have hchar : ∀ c, fmtChar (fmtChar c) = fmtChar c := by
    intro c
    by_cases h : c = dqChar
    · subst h; decide
    · simp [fmtChar, h]
  have hidem : ∀ l, fmtChars (fmtChars l) = fmtChars l := by
    intro l
    induction l with
    | nil => rfl
    | cons c rest ih => simp only [fmtChars, List.map_cons] at ih ⊢; rw [hchar, ih]
  constructor
  · intro s
    show String.mk (fmtChars (String.mk (fmtChars s.data)).data) = String.mk (fmtChars s.data)
    rw [show (String.mk (fmtChars s.data)).data = fmtChars s.data from rfl, hidem]
  · intro pre mid post
    show String.mk (fmtChars (pre ++ formatQuery mid ++ post).data)
        = String.mk (fmtChars (pre ++ mid ++ post).data)
    rw [String.data_append, String.data_append, String.data_append, String.data_append]
    rw [show (formatQuery mid).data = fmtChars mid.data from rfl]
    simp only [fmtChars, List.map_append]
    rw [show (mid.data.map fmtChar).map fmtChar = mid.data.map fmtChar from hidem mid.data]

/-- Claim C9 (amended): the configured rewrite hook is applied to the
final SQL string of every submission (with the location hint, defaulting
to US) and its output is exactly what is executed; the job-start log
records the pre-wrapper SQL string, not the hook's output. -/
theorem queryWrapper_output_is_executed (cfg : AdapterConfig)
    (w : String → String → String) (hw : cfg.queryWrapper = some w)
    (q loc : String) :
    runQuery cfg q loc =
      { executed := w q (if loc = "" then "US" else loc), logged := q } := by
  simp [runQuery, hw]

/-- Claim C9 witness: a concrete hook that appends a pragma is applied to
the executed SQL. -/
theorem queryWrapper_output_is_executed_witness :
    runQuery cfgW "SELECT 1" "US" = { executed := "SELECT 1 OPT", logged := "SELECT 1" } := by
  rw [queryWrapper_output_is_executed cfgW (fun q _ => q ++ " OPT") rfl "SELECT 1" "US"]
  decide

/-- Claim C9 counterexample: with a rewrite hook that appends text, the
logged SQL differs from the executed SQL, refuting that the hook's output
is also exactly what is logged. -/
theorem runQuery_logged_ne_executed :
    (runQuery cfgW "SELECT 1" "US").logged ≠ (runQuery cfgW "SELECT 1" "US").executed := by
  decide

/-- Claim C8 (confirmed): a limit that is non-numeric, zero, or negative
produces no LIMIT clause, an offset that is non-numeric, zero, or
negative produces no OFFSET clause, and such values never raise an error
— the find call still succeeds. -/
theorem limit_offset_guards (cfg : AdapterConfig) (tn : String) (tbl : Table)
    (params : Params) (c : BigQueryContext) (ic : Bool)
    (hl : ∀ n : Int, getParam (stripCtx params) "limit" = some (.num n) → n ≤ 0)
    (ho : ∀ n : Int, getParam (stripCtx params) "offset" = some (.num n) → n ≤ 0)
    (hc : lookupCtx params = some c) :
    (buildCursorQB cfg tn (stripCtx params) ic).lim = none ∧
    (buildCursorQB cfg tn (stripCtx params) ic).off = none ∧
    ∃ out, find cfg tbl params = Except.ok out := by
  have key : ∀ (k : String),
      (∀ n : Int, getParam (stripCtx params) k = some (.num n) → n ≤ 0) →
      posNumOf (getParam (stripCtx params) k) = none := by
    intro k hk
    cases hgl : getParam (stripCtx params) k with
    | none => rfl
    | some v =>
      cases v with
      | num n =>
        have hn := hk n hgl
        show (if n > 0 then some n else none) = none
        rw [if_neg (by omega)]
      | null => rfl
      | str s => rfl
      | boolean b => rfl
      | arr xs => rfl
      | obj o => rfl
  refine ⟨?_, ?_, ?_⟩
  · by_cases hp : (stripCtx params).length > 0 <;>
      simp [buildCursorQB, cursorLim, hp, key _ hl]
  · by_cases hp : (stripCtx params).length > 0 <;>
      simp [buildCursorQB, cursorOff, hp, key _ ho]
  · simp only [find, createCursorRows, retrieveContext, hc]
    exact ⟨_, rfl⟩

/-- Claim C8 witness: limit zero and a string offset are both ignored and
the find succeeds. -/
theorem limit_offset_guards_witness :
    (buildCursorQB cfgEx "t" (stripCtx paramsC8) false).lim = none ∧
    (buildCursorQB cfgEx "t" (stripCtx paramsC8) false).off = none ∧
    ∃ out, find cfgEx [] paramsC8 = Except.ok out := by
  refine limit_offset_guards cfgEx "t" [] paramsC8 ctxEx false ?_ ?_ rfl
  · intro n h
    rw [show getParam (stripCtx paramsC8) "limit" = some (JValue.num 0) from rfl] at h
    simp at h
    omega
  · intro n h
    rw [show getParam (stripCtx paramsC8) "offset" = some (JValue.str "ten") from rfl] at h
    simp at h

/-- Claim C3 counterexample: with primary key userId, the where-object
containing id 5 normalizes to one that still carries the literal key id
(alongside the primary-key column), and the literal key id appears among
the equality columns of the built WHERE — refuting that the normalized
where-clause never contains the key id. -/
theorem migrate_retains_id_counterexample :
    migrateIdParamToPrimaryKey cfgEx [("id", .num 5)] =
      [("id", .num 5), ("userId", .num 5)] ∧
    "id" ∈ eqCols (cursorWheres cfgEx [("query", .jv (.obj [("id", .num 5)]))]) := by
  exact ⟨rfl, by decide⟩

/-- Claim C3 (amended): a truthy id value is copied onto the configured
primary-key column of the where-object, but the literal id key is
retained, not dropped — both columns carry that value afterwards
(whenever neither column is denylisted). -/
theorem migrate_id_to_primary_key (cfg : AdapterConfig) (o : JObj) (v : JValue)
    (hid : getKey o "id" = some v) (hv : truthy v = true)
    (h1 : "id" ∉ cfg.queryBlacklist.getD [])
    (h2 : cfg.getIdKey ∉ cfg.queryBlacklist.getD []) :
    getKey (migrateIdParamToPrimaryKey cfg o) cfg.getIdKey = some v ∧
    getKey (migrateIdParamToPrimaryKey cfg o) "id" = some v := by
  unfold migrateIdParamToPrimaryKey
  rw [hid]
  simp only [hv, if_true]
  constructor
  · rw [getKey_foldl_aremove_ne h2]
    exact alookup_aset_self o cfg.getIdKey v
  · rw [getKey_foldl_aremove_ne h1]
    by_cases hpk : cfg.getIdKey = "id"
    · rw [← hpk]
      exact alookup_aset_self o cfg.getIdKey v
    · rw [show getKey (setKey o cfg.getIdKey v) "id"
          = getKey o "id" from alookup_aset_ne o (fun e => hpk e.symm) v]
      exact hid

/-- Claim C3 witness: the amended behaviour at the concrete input. -/
theorem migrate_id_to_primary_key_witness :
    getKey (migrateIdParamToPrimaryKey cfgEx [("id", JValue.num 5)]) "userId" =
      some (.num 5) ∧
    getKey (migrateIdParamToPrimaryKey cfgEx [("id", JValue.num 5)]) "id" =
      some (.num 5) :=
  migrate_id_to_primary_key cfgEx [("id", .num 5)] (.num 5) rfl rfl
    (by decide) (by decide)

/-- Claim C4 counterexample: findOne builds its WHERE directly from the
raw query object, so a denylisted column passes straight into the built
SQL — refuting that no operation's WHERE ever references a denylisted
column. -/
theorem findOne_bypasses_denylist :
    "secret" ∈ (cfgEx.queryBlacklist.getD []) ∧
    findOne cfgEx [] [(contextKey, .ctxv ctxEx), ("secret", .jv (.str "x"))] =
      Except.ok ([[{ table := "tbl_imp1", mode := .select,
                     wheres := [(false, .eq "secret" (.str "x"))],
                     orders := [], lim := some 1, off := none, cnt := none }]],
                 [], none) := by
  exact ⟨by decide, rfl⟩

/-- Claim C4 (amended): the denylist is enforced only on the structured
query object of the find/count cursor (through
migrateIdParamToPrimaryKey): those WHERE clauses never carry an equality
condition on a denylisted column.  Operations that pass their raw object
to the builder (findOne, updateMany, removeMany) receive no such
filtering. -/
theorem denylist_enforced_on_cursor (cfg : AdapterConfig) (p : Params)
    (k : String) (hk : k ∈ cfg.queryBlacklist.getD []) :
    k ∉ eqCols (cursorWheres cfg p) := by
  unfold cursorWheres
  by_cases hp : p.length > 0
  · simp only [hp, if_true]
    cases searchTermOf p with
    | some term =>
      by_cases hq : truthyOpt (getParam p "query")
      · simp only [hq, if_true]
        rw [eqCols_append, eqCols_eqmap, eqCols_likemap]
        intro hmem
        rw [List.append_nil] at hmem
        exact not_mem_keys_migrate cfg _ hk hmem
      · simp only [hq, if_false, Bool.false_eq_true, List.nil_append]
        rw [eqCols_likemap]
        simp
    | none =>
      rw [eqCols_eqmap]
      exact not_mem_keys_migrate cfg _ hk
  · simp [hp, eqCols]

/-- Claim C4 witness: the denylisted column does not survive into the
cursor's equality clauses at a concrete input. -/
theorem denylist_enforced_on_cursor_witness :
    "secret" ∉ eqCols (cursorWheres cfgEx
      [("query", .jv (.obj [("secret", .str "x"), ("age", .num 7)]))]) :=
  denylist_enforced_on_cursor cfgEx
    [("query", .jv (.obj [("secret", .str "x"), ("age", .num 7)]))] "secret" (by decide)

/-- Claim C5 counterexample: the string shape converts only the FIRST
comma to a separator, so a two-comma string does not normalize to the
same ordered column sequence as the equivalent token array. -/
theorem transformSort_comma_counterexample :
    (transformSort (qbInit "t") (.str "a,b,c")).orders = [("a", true), ("b,c", true)] ∧
    (transformSort (qbInit "t") (.arrS ["a", "b", "c"])).orders =
      [("a", true), ("b", true), ("c", true)] ∧
    (transformSort (qbInit "t") (.str "a,b,c")).orders ≠
      (transformSort (qbInit "t") (.arrS ["a", "b", "c"])).orders := by
  refine ⟨by decide, rfl, by decide⟩

theorem head?_take_one {α : Type} (l : List α) : (l.take 1).head? = l.head? := by
  cases l <;> rfl

theorem migrate_noop (cfg : AdapterConfig) (o : JObj)
    (hbl : cfg.queryBlacklist = none) (hid : getKey o "id" = none) :
    migrateIdParamToPrimaryKey cfg o = o := by
  unfold migrateIdParamToPrimaryKey
  rw [hid, hbl]
  rfl

/-- Claim C7 counterexample: two rows share the primary-key value X.
findById (whose query carries LIMIT 1) returns only the first, while
removeById returns both pre-image rows — so removeById's result is not
exactly the row findById would have returned before the delete. -/
theorem removeById_vs_findById_counterexample :
    opRet (findById cfgEx [rowA, rowB] ctxOnlyParams "X") = some (some rowA) ∧
    opRows (removeById cfgEx [rowA, rowB] ctxOnlyParams "X") = [rowA, rowB] ∧
    [rowA, rowB] ≠ [rowA] := by
  refine ⟨rfl, rfl, fun h => ?_⟩
  simpa using congrArg List.length h

/-- Claim C7 (amended): removeMany and removeById submit the pre-image
SELECT as their own first job and the DELETE with the same WHERE as a
second job, delete exactly the matching rows, and return the pre-image
rows — for removeById, ALL rows matching the primary-key equality.
findById, whose query carries LIMIT 1, returns the FIRST such row; the
two coincide exactly when at most one row matches. -/
theorem removeById_pre_image (cfg : AdapterConfig) (tbl : Table)
    (c : BigQueryContext) (id : String) :
    (∀ wp : Params, lookupCtx wp = some c →
      removeMany cfg tbl wp =
        Except.ok
          ([[whereObj (qbInit (cfg.getTableName c)) (paramsToJObj (stripCtx wp))],
            [setDel (whereObj (qbInit (cfg.getTableName c)) (paramsToJObj (stripCtx wp)))]],
           tbl.filter (fun r => !(evalWheres r ((paramsToJObj (stripCtx wp)).map
             (fun kv => (false, WhereCond.eq kv.1 kv.2))))),
           tbl.filter (fun r => evalWheres r ((paramsToJObj (stripCtx wp)).map
             (fun kv => (false, WhereCond.eq kv.1 kv.2)))))) ∧
    removeById cfg tbl [(contextKey, .ctxv c)] id =
      Except.ok
        ([[whereObj (qbInit (cfg.getTableName c)) [(cfg.getIdKey, .str id)]],
          [setDel (whereObj (qbInit (cfg.getTableName c)) [(cfg.getIdKey, .str id)])]],
         tbl.filter (fun r => !(evalWheres r [(false, .eq cfg.getIdKey (.str id))])),
         tbl.filter (fun r => evalWheres r [(false, .eq cfg.getIdKey (.str id))])) ∧
    findById cfg tbl [(contextKey, .ctxv c)] id =
      Except.ok
        ([[setLimit (whereObj (qbInit (cfg.getTableName c)) [(cfg.getIdKey, .str id)]) 1]],
         tbl,
         (tbl.filter (fun r => evalWheres r [(false, .eq cfg.getIdKey (.str id))])).head?) := by
  refine ⟨?_, rfl, ?_⟩
  · intro wp hctx
    have hretr : retrieveContext cfg wp =
        .ok ({c with tableName := some (cfg.getTableName c)}, stripCtx wp) := by
      unfold retrieveContext
      rw [hctx]
    unfold removeMany
    simp [hretr, tableNameOf]
    exact ⟨rfl, rfl⟩
  · conv_rhs =>
      rw [← head?_take_one (tbl.filter
        (fun r => evalWheres r [(false, WhereCond.eq cfg.getIdKey (.str id))]))]
    rfl

/-- Claim C7 witness: the removeMany conjunct at a concrete payload —
the pre-image of the two X rows is read, both are deleted, and both are
returned. -/
theorem removeById_pre_image_witness :
    removeMany cfgEx [rowA, rowB]
        [(contextKey, .ctxv ctxEx), ("userId", .jv (.str "X"))] =
      Except.ok
        ([[whereObj (qbInit (cfgEx.getTableName ctxEx))
             (paramsToJObj (stripCtx [(contextKey, .ctxv ctxEx), ("userId", .jv (.str "X"))]))],
          [setDel (whereObj (qbInit (cfgEx.getTableName ctxEx))
             (paramsToJObj (stripCtx [(contextKey, .ctxv ctxEx), ("userId", .jv (.str "X"))])))]],
         List.filter (fun r => !(evalWheres r
           ((paramsToJObj (stripCtx [(contextKey, .ctxv ctxEx), ("userId", .jv (.str "X"))])).map
             (fun kv => (false, WhereCond.eq kv.1 kv.2))))) [rowA, rowB],
         List.filter (fun r => evalWheres r
           ((paramsToJObj (stripCtx [(contextKey, .ctxv ctxEx), ("userId", .jv (.str "X"))])).map
             (fun kv => (false, WhereCond.eq kv.1 kv.2)))) [rowA, rowB]) :=
  (removeById_pre_image cfgEx [rowA, rowB] ctxEx "X").1
    [(contextKey, .ctxv ctxEx), ("userId", .jv (.str "X"))] rfl

/-- Claim C1 counterexample: for the scenario filter (query age 7, search
abc over name and tag), the WHERE the code builds accepts a row with the
wrong age but a matching name — find returns it — whereas the claimed
AND-combined WHERE rejects that row.  The built WHERE is therefore not
(age = 7) AND (name LIKE ... OR tag LIKE ...). -/
theorem search_where_counterexample :
    evalWheres rowC1 (cursorWheres cfgEx (stripCtx paramsC1)) = true ∧
    claimedC1Where rowC1 = false ∧
    opRows (find cfgEx [rowC1] paramsC1) = [rowC1] := by
  exact ⟨rfl, rfl, rfl⟩

theorem filterMap_str_map (fs : List String) :
    (fs.map JValue.str).filterMap
      (fun v => match v with | JValue.str t => some t | _ => none) = fs := by
  induction fs with
  | nil => rfl
  | cons f rest ih => simp [List.filterMap_cons, ih]

/-- Claim C1 (amended): when the search term is a non-empty string, the
query's equality clauses and the per-field LIKE clauses are chained at
ONE level, the LIKE clauses attached with orWhere — equality clauses
first, then one OR-attached LIKE clause per search field — rather than
the equality part being ANDed against a parenthesized OR group. -/
theorem search_where_flat_or (cfg : AdapterConfig) (o : JObj) (s : String)
    (fs : List String) (hs : s ≠ "")
    (hbl : cfg.queryBlacklist = none) (hid : getKey o "id" = none) :
    cursorWheres cfg
      [("query", .jv (.obj o)), ("search", .jv (.str s)),
       ("searchFields", .jv (.arr (fs.map JValue.str)))] =
      o.map (fun kv => (false, WhereCond.eq kv.1 kv.2)) ++
        fs.map (fun f => (true, WhereCond.like f s)) := by
  have hterm : searchTermOf
      [("query", .jv (.obj o)), ("search", .jv (.str s)),
       ("searchFields", .jv (.arr (fs.map JValue.str)))] = some s := by
    simp [searchTermOf, getParam, alookup, hs]
  have hfields : searchFieldsOf
      [("query", .jv (.obj o)), ("search", .jv (.str s)),
       ("searchFields", .jv (.arr (fs.map JValue.str)))] = fs :=
    filterMap_str_map fs
  have hquery : getParam
      [(("query" : String), PValue.jv (.obj o)), ("search", .jv (.str s)),
       ("searchFields", .jv (.arr (fs.map JValue.str)))] "query" = some (.obj o) := by
    simp [getParam, alookup]
  unfold cursorWheres
  rw [hterm]
  simp only [hquery, List.length_cons, truthyOpt, truthy, toObjFields,
    migrate_noop cfg o hbl hid, hfields]
  simp

theorem alookup_eq_none_of_keys {β : Type} {l : List (String × β)} {k : String}
    (h : ∀ kv ∈ l, kv.1 ≠ k) : alookup l k = none := by
  induction l with
  | nil => rfl
  | cons kv rest ih =>
    have h1 : kv.1 ≠ k := h kv (by simp)
    simp only [alookup]
    rw [if_neg (by simp [h1])]
    exact ih (fun kv2 hm => h kv2 (by simp [hm]))

theorem paramsToJObj_stripCtx_no_carrier (p : Params) :
    ∀ kv ∈ paramsToJObj (stripCtx p), kv.1 ≠ contextKey := by
  intro kv hkv
  obtain ⟨kv0, hkv0, hmap⟩ := List.mem_filterMap.mp hkv
  have h0 := (mem_aremove hkv0).2
  cases h2 : kv0.2 with
  | jv x =>
    rw [h2] at hmap
    simp only [Option.some.injEq] at hmap
    rw [← hmap]
    exact h0
  | ctxv c =>
    rw [h2] at hmap
    simp at hmap

theorem getKey_paramsToJObj_stripCtx (p : Params) :
    getKey (paramsToJObj (stripCtx p)) contextKey = none :=
  alookup_eq_none_of_keys (paramsToJObj_stripCtx_no_carrier p)

theorem carrier_not_in_whereObj (p : Params) (tn : String) :
    contextKey ∉ eqCols ((whereObj (qbInit tn) (paramsToJObj (stripCtx p))).wheres) := by
  intro h
  rw [show (whereObj (qbInit tn) (paramsToJObj (stripCtx p))).wheres
      = (paramsToJObj (stripCtx p)).map (fun kv => (false, WhereCond.eq kv.1 kv.2)) from rfl,
    eqCols_eqmap] at h
  obtain ⟨kv, hkv, hfst⟩ := List.mem_map.mp h
  exact paramsToJObj_stripCtx_no_carrier p kv hkv hfst

/-- Claim C2 (confirmed): every public operation resolves the tenant
context from its parameter payload first: with no context attached the
call fails with the missing-context error (and thus submits nothing —
an errored call reports no jobs), and the carrier key is stripped from
the payload, so a payload-derived WHERE object never carries the context
key into the built SQL. -/
theorem context_required_and_stripped (cfg : AdapterConfig) (tbl : Table)
    (p : Params) (whereO : JObj) (id : String) (ids : List String) :
    (lookupCtx p = none →
      find cfg tbl p = .error .missingContext ∧
      count cfg tbl p = .error .missingContext ∧
      findOne cfg tbl p = .error .missingContext ∧
      findById cfg tbl p id = .error .missingContext ∧
      findByIds cfg tbl p ids = .error .missingContext ∧
      insert cfg tbl p = .error .missingContext ∧
      insertMany cfg tbl [p] = .error .missingContext ∧
      updateMany cfg tbl whereO p = .error .missingContext ∧
      updateById cfg tbl id p = .error .missingContext ∧
      removeMany cfg tbl p = .error .missingContext ∧
      removeById cfg tbl p id = .error .missingContext) ∧
    getKey (paramsToJObj (stripCtx p)) contextKey = none ∧
    (∀ tn, contextKey ∉ eqCols ((whereObj (qbInit tn) (paramsToJObj (stripCtx p))).wheres)) := by
  refine ⟨fun h => ?_, getKey_paramsToJObj_stripCtx p,
    fun tn => carrier_not_in_whereObj p tn⟩
  refine ⟨?_, ?_, ?_, ?_, ?_, ?_, ?_, ?_, ?_, ?_, ?_⟩ <;>
    simp [find, count, createCursorRows, findOne, findById, findByIds, insert,
      insertMany, updateMany, updateById, removeMany, removeById,
      retrieveContext, retrieveContextList, ctxMapAll, h]

/-- Claim C2 witness: a payload without the carrier fails find with the
missing-context error; the scenario payload's stripped object carries no
context key. -/
theorem context_required_and_stripped_witness :
    find cfgEx [] [("a", PValue.jv (.num 1))] = .error .missingContext ∧
    getKey (paramsToJObj (stripCtx paramsC1)) contextKey = none := by
  refine ⟨((context_required_and_stripped cfgEx [] [("a", PValue.jv (.num 1))]
    [] "x" []).1 rfl).1, ?_⟩
  exact (context_required_and_stripped cfgEx [] paramsC1 [] "x" []).2.1

/-- Claim C1 witness: the amended clause shape at the scenario input. -/
theorem search_where_flat_or_witness :
    cursorWheres cfgNoBl
      [("query", .jv (.obj [("age", .num 7)])), ("search", .jv (.str "abc")),
       ("searchFields", .jv (.arr [.str "name", .str "tag"]))] =
      [(false, .eq "age" (.num 7)),
       (true, .like "name" "abc"), (true, .like "tag" "abc")] := by
  have h := search_where_flat_or cfgNoBl [("age", .num 7)] "abc" ["name", "tag"]
    (by decide) rfl rfl
  simpa using h

theorem getParam_removeParamKey_self (p : Params) (k : String) :
    getParam (removeParamKey p k) k = none := by
  unfold getParam removeParamKey
  rw [alookup_aremove_self]

theorem getParam_removeParamKey_ne (p : Params) {k k' : String} (h : k' ≠ k) :
    getParam (removeParamKey p k) k' = getParam p k' := by
  unfold getParam removeParamKey
  rw [alookup_aremove_ne _ h]

theorem lookupCtx_removeParamKey (p : Params) {k : String} (h : contextKey ≠ k) :
    lookupCtx (removeParamKey p k) = lookupCtx p := by
  unfold lookupCtx removeParamKey
  rw [alookup_aremove_ne _ h]

theorem aremove_comm {β : Type} (l : List (String × β)) (k1 k2 : String) :
    aremove (aremove l k1) k2 = aremove (aremove l k2) k1 := by
  induction l with
  | nil => rfl
  | cons kv rest ih =>
    by_cases h1 : kv.1 = k1
    · by_cases h2 : kv.1 = k2
      · have hk12 : k1 = k2 := by rw [← h1, h2]
        subst hk12
        rfl
      · have b1 : (kv.1 == k1) = true := by simpa using h1
        have b2 : (kv.1 == k2) = false := by simpa using h2
        simp only [aremove, b1, b2, if_true, if_false]
        exact ih
    · by_cases h2 : kv.1 = k2
      · have b1 : (kv.1 == k1) = false := by simpa using h1
        have b2 : (kv.1 == k2) = true := by simpa using h2
        simp only [aremove, b1, b2, if_true, if_false]
        exact ih
      · have b1 : (kv.1 == k1) = false := by simpa using h1
        have b2 : (kv.1 == k2) = false := by simpa using h2
        simp only [aremove, b1, b2, if_true, if_false]
        rw [ih]

theorem length_aremove_le {β : Type} (l : List (String × β)) (k : String) :
    (aremove l k).length ≤ l.length := by
  induction l with
  | nil => simp [aremove]
  | cons kv rest ih =>
    by_cases h : kv.1 = k <;> simp [aremove, h] <;> omega

theorem keys_of_aremove_eq_nil {β : Type} {l : List (String × β)} {k : String}
    (h : aremove l k = []) : ∀ kv ∈ l, kv.1 = k := by
  induction l with
  | nil => simp
  | cons kv rest ih =>
    by_cases hk : kv.1 = k
    · intro kv2 hm
      rcases List.mem_cons.mp hm with rfl | hm2
      · exact hk
      · exact ih (by simpa [aremove, hk] using h) kv2 hm2
    · simp [aremove, hk] at h

theorem getParam_eq_none_of_keys {p : Params} {k k' : String}
    (hall : ∀ kv ∈ p, kv.1 = k) (h : k' ≠ k) : getParam p k' = none := by
  unfold getParam
  rw [alookup_eq_none_of_keys]
  intro kv hm
  rw [hall kv hm]
  exact fun e => h e.symm

theorem length_orderedInsert (ords : List (String × Bool)) (r : JObj) (l : List JObj) :
    (orderedInsert ords r l).length = l.length + 1 := by
  induction l with
  | nil => rfl
  | cons s rest ih =>
    unfold orderedInsert
    by_cases h : cmpRows ords r s = .gt <;> simp [h, ih]

theorem length_sortRows (ords : List (String × Bool)) (l : List JObj) :
    (sortRows ords l).length = l.length := by
  induction l with
  | nil => rfl
  | cons r rest ih => simp [sortRows, length_orderedInsert, ih]

theorem length_applySort (ords : List (String × Bool)) (l : List JObj) :
    (applySort ords l).length = l.length := by
  unfold applySort
  by_cases h : ords.isEmpty <;> simp [h, length_sortRows]

theorem foldl_aremove_nil (bl : List String) :
    bl.foldl (fun acc k => removeKey acc k) ([] : JObj) = [] := by
  induction bl with
  | nil => rfl
  | cons k rest ih => simpa [removeKey, aremove] using ih

theorem migrate_nil (cfg : AdapterConfig) :
    migrateIdParamToPrimaryKey cfg [] = [] := by
  unfold migrateIdParamToPrimaryKey
  simp [getKey, alookup, foldl_aremove_nil]

theorem cursorWheres_removeParamKey (cfg : AdapterConfig) (p : Params) (k : String)
    (h1 : ("search" : String) ≠ k) (h2 : ("searchFields" : String) ≠ k)
    (h3 : ("query" : String) ≠ k) :
    cursorWheres cfg (removeParamKey p k) = cursorWheres cfg p := by
  by_cases hp' : (removeParamKey p k).length > 0
  · have hp : p.length > 0 := by
      have := length_aremove_le p k
      unfold removeParamKey at hp'
      omega
    have hS : searchTermOf (removeParamKey p k) = searchTermOf p := by
      unfold searchTermOf
      rw [getParam_removeParamKey_ne p h1]
    have hF : searchFieldsOf (removeParamKey p k) = searchFieldsOf p := by
      unfold searchFieldsOf
      rw [getParam_removeParamKey_ne p h2]
    have hQ : getParam (removeParamKey p k) "query" = getParam p "query" :=
      getParam_removeParamKey_ne p h3
    unfold cursorWheres
    rw [if_pos hp', if_pos hp, hS, hF, hQ]
  · have hz : removeParamKey p k = [] := by
      cases hq : removeParamKey p k with
      | nil => rfl
      | cons a b => rw [hq] at hp'; simp at hp'
    have hall : ∀ kv ∈ p, kv.1 = k := keys_of_aremove_eq_nil hz
    have hsp : searchTermOf p = none := by
      unfold searchTermOf
      rw [getParam_eq_none_of_keys hall h1]
    have hqp : getParam p "query" = none := getParam_eq_none_of_keys hall h3
    unfold cursorWheres
    rw [hz]
    by_cases hp : p.length > 0
    · rw [if_pos hp, hsp, hqp]
      simp [toObjFields, migrate_nil]
    · rw [if_neg hp]
      simp

theorem posNumOf_pos {v : Option JValue} {n : Int} (h : posNumOf v = some n) :
    0 < n := by
  unfold posNumOf at h
  split at h
  · split at h
    · cases h
      assumption
    · cases h
  · cases h

theorem cursorLim_pos {p : Params} {n : Int} (h : cursorLim p = some n) : 0 < n := by
  unfold cursorLim at h
  by_cases hp : p.length > 0
  · rw [if_pos hp] at h
    exact posNumOf_pos h
  · rw [if_neg hp] at h
    cases h

theorem take_toNat_singleton {n : Int} (hn : 0 < n) (r : JObj) :
    List.take n.toNat [r] = [r] := by
  obtain ⟨m, hm⟩ : ∃ m, n.toNat = m + 1 := ⟨n.toNat - 1, by omega⟩
  rw [hm]
  simp

theorem execStmt_count (tbl : Table) (q : QB) (cn : String)
    (hmode : q.mode = .select) (hcnt : q.cnt = some cn) (hoff : q.off = none)
    (hlim : ∀ n, q.lim = some n → 0 < n) :
    execStmt tbl q =
      (tbl, [[("f0_", JValue.num
        ((tbl.filter (fun r => evalWheres r q.wheres)).length : Int))]]) := by
  unfold execStmt
  rw [hmode, hcnt, hoff]
  cases hl : q.lim with
  | none => simp [applyOffset, applyLimit]
  | some n =>
    have := hlim n hl
    simp [applyOffset, applyLimit, take_toNat_singleton this]

theorem execStmt_select (tbl : Table) (q : QB)
    (hmode : q.mode = .select) (hcnt : q.cnt = none) (hoff : q.off = none)
    (hlim : q.lim = none) :
    execStmt tbl q =
      (tbl, applySort q.orders (tbl.filter (fun r => evalWheres r q.wheres))) := by
  unfold execStmt
  rw [hmode, hcnt, hoff, hlim]
  simp [applyOffset, applyLimit]

theorem execJob_singleton (tbl : Table) (q : QB) :
    execJob tbl [q] = execStmt tbl q := rfl

/-- Claim C6 counterexample: with offset 1 in the filter, the count query
OFFSETs its single aggregate row away and count dereferences an empty
result set — a TypeError — instead of returning the number of rows find
would return with pagination removed. -/
theorem count_offset_counterexample :
    count cfgEx [rowA, rowB] [(contextKey, .ctxv ctxEx), ("offset", .jv (.num 1))] =
      .error .typeError ∧
    opRows (find cfgEx [rowA, rowB]
        (sansPaging [(contextKey, .ctxv ctxEx), ("offset", .jv (.num 1))])) =
      [rowA, rowB] := by
  exact ⟨rfl, rfl⟩

/-- Claim C6 (amended): for every filter carrying a context and whose
offset is not a positive number, count returns a single non-negative
integer under the synthetic column f0_, equal to the number of rows find
would return with limit and offset removed.  A positive numeric offset
instead displaces the single aggregate row and count fails with a
TypeError, as the counterexample shows. -/
theorem count_matches_unpaged_find (cfg : AdapterConfig) (tbl : Table)
    (params : Params) (c : BigQueryContext)
    (hc : lookupCtx params = some c)
    (ho : posNumOf (getParam (stripCtx params) "offset") = none) :
    countValue cfg tbl params =
      Except.ok (.num ((opRows (find cfg tbl (sansPaging params))).length : Int)) ∧
    (0 : Int) ≤ ((opRows (find cfg tbl (sansPaging params))).length : Int) := by
  have hoff : cursorOff (stripCtx params) = none := by
    unfold cursorOff
    by_cases hl : (stripCtx params).length > 0
    · rw [if_pos hl]
      exact ho
    · rw [if_neg hl]
  have hretr : retrieveContext cfg params =
      .ok ({c with tableName := some (cfg.getTableName c)}, stripCtx params) := by
    unfold retrieveContext
    rw [hc]
  have hexecC : execJob tbl
      [buildCursorQB cfg (cfg.getTableName c) (stripCtx params) true] =
      (tbl, [[("f0_", JValue.num
        ((tbl.filter (fun r =>
          evalWheres r (cursorWheres cfg (stripCtx params)))).length : Int))]]) := by
    rw [execJob_singleton]
    exact execStmt_count tbl
      (buildCursorQB cfg (cfg.getTableName c) (stripCtx params) true)
      cfg.getIdKey rfl rfl hoff (fun n h => cursorLim_pos h)
  have hcv : countValue cfg tbl params =
      Except.ok (.num ((tbl.filter (fun r =>
        evalWheres r (cursorWheres cfg (stripCtx params)))).length : Int)) := by
    unfold countValue count createCursorRows
    simp [hretr, tableNameOf, hexecC, getKey, alookup, Except.map]
  have hc2 : lookupCtx (sansPaging params) = some c := by
    unfold sansPaging
    rw [lookupCtx_removeParamKey _ (by decide), lookupCtx_removeParamKey _ (by decide), hc]
  have hstrip2 : stripCtx (sansPaging params) = sansPaging (stripCtx params) := by
    unfold sansPaging stripCtx removeParamKey
    rw [aremove_comm (aremove params "limit") "offset" contextKey,
        aremove_comm params "limit" contextKey]
  have hfretr : retrieveContext cfg (sansPaging params) =
      .ok ({c with tableName := some (cfg.getTableName c)},
           sansPaging (stripCtx params)) := by
    unfold retrieveContext
    rw [hc2, hstrip2]
  have hww : cursorWheres cfg (sansPaging (stripCtx params)) =
      cursorWheres cfg (stripCtx params) := by
    unfold sansPaging
    rw [cursorWheres_removeParamKey cfg _ "offset" (by decide) (by decide) (by decide),
        cursorWheres_removeParamKey cfg _ "limit" (by decide) (by decide) (by decide)]
  have hfl : cursorLim (sansPaging (stripCtx params)) = none := by
    have hgl : getParam (sansPaging (stripCtx params)) "limit" = none := by
      unfold sansPaging
      rw [getParam_removeParamKey_ne _ (by decide), getParam_removeParamKey_self]
    unfold cursorLim
    by_cases hl : (sansPaging (stripCtx params)).length > 0
    · rw [if_pos hl, hgl]
      rfl
    · rw [if_neg hl]
  have hfo : cursorOff (sansPaging (stripCtx params)) = none := by
    have hgo : getParam (sansPaging (stripCtx params)) "offset" = none := by
      unfold sansPaging
      rw [getParam_removeParamKey_self]
    unfold cursorOff
    by_cases hl : (sansPaging (stripCtx params)).length > 0
    · rw [if_pos hl, hgo]
      rfl
    · rw [if_neg hl]
  have hexecF : execJob tbl
      [buildCursorQB cfg (cfg.getTableName c) (sansPaging (stripCtx params)) false] =
      (tbl, applySort (cursorOrders (sansPaging (stripCtx params)))
        (tbl.filter (fun r =>
          evalWheres r (cursorWheres cfg (sansPaging (stripCtx params)))))) := by
    rw [execJob_singleton]
    exact execStmt_select tbl
      (buildCursorQB cfg (cfg.getTableName c) (sansPaging (stripCtx params)) false)
      rfl rfl hfo hfl
  have hfind : find cfg tbl (sansPaging params) =
      .ok ([[buildCursorQB cfg (cfg.getTableName c) (sansPaging (stripCtx params)) false]],
           tbl,
           applySort (cursorOrders (sansPaging (stripCtx params)))
             (tbl.filter (fun r =>
               evalWheres r (cursorWheres cfg (stripCtx params))))) := by
    unfold find createCursorRows
    rw [hww] at hexecF
    simp [hfretr, tableNameOf, hexecF]
  constructor
  · rw [hcv, hfind]
    show _ = Except.ok (JValue.num ((applySort _ _).length : Int))
    rw [length_applySort]
  · rw [hfind]
    show (0 : Int) ≤ ((applySort _ _).length : Int)
    omega

/-- Claim C6 witness: on a table of two matching rows with limit 1 in the
filter, count still reports 2 — the size of the unpaged find. -/
theorem count_matches_unpaged_find_witness :
    countValue cfgEx [rowA, rowB]
        [(contextKey, .ctxv ctxEx), ("limit", .jv (.num 1))] =
      Except.ok (.num ((opRows (find cfgEx [rowA, rowB]
        (sansPaging [(contextKey, .ctxv ctxEx), ("limit", .jv (.num 1))]))).length : Int)) ∧
    (0 : Int) ≤ ((opRows (find cfgEx [rowA, rowB]
      (sansPaging [(contextKey, .ctxv ctxEx), ("limit", .jv (.num 1))]))).length : Int) :=
  count_matches_unpaged_find cfgEx [rowA, rowB]
    [(contextKey, .ctxv ctxEx), ("limit", .jv (.num 1))] ctxEx rfl rfl

/-! ### Lemmas for the sort-shape equivalence (claim C5) -/

theorem splitCh_no_sep {sep : Char} {l : List Char} (h : sep ∉ l) :
    splitCh sep l = [l] := by
  induction l with
  | nil => rfl
  | cons c rest ih =>
    have hc : ¬ c = sep := fun e => h (by simp [e])
    simp only [splitCh]
    rw [if_neg hc, ih (fun hm => h (by simp [hm]))]

theorem splitCh_append_sep {sep : Char} {t rest : List Char} (h : sep ∉ t) :
    splitCh sep (t ++ sep :: rest) = t :: splitCh sep rest := by
  induction t with
  | nil => simp [splitCh]
  | cons c t' ih =>
    have hc : ¬ c = sep := fun e => h (by simp [e])
    have h' : sep ∉ t' := fun hm => h (by simp [hm])
    show splitCh sep (c :: (t' ++ sep :: rest)) = (c :: t') :: splitCh sep rest
    rw [show splitCh sep (c :: (t' ++ sep :: rest))
        = if c = sep then [] :: splitCh sep (t' ++ sep :: rest)
          else match splitCh sep (t' ++ sep :: rest) with
            | ts :: tss => (c :: ts) :: tss
            | [] => [[c]] from rfl]
    rw [if_neg hc, ih h']

theorem splitCh_joinSpaceCh :
    ∀ ts : List (List Char), ts ≠ [] → (∀ t ∈ ts, ' ' ∉ t) →
      splitCh ' ' (joinSpaceCh ts) = ts := by
  intro ts
  induction ts with
  | nil => intro h; exact absurd rfl h
  | cons t rest ih =>
    intro _ hns
    cases rest with
    | nil => exact splitCh_no_sep (hns t (by simp))
    | cons t2 rest2 =>
      rw [show joinSpaceCh (t :: t2 :: rest2) = t ++ ' ' :: joinSpaceCh (t2 :: rest2)
        from rfl]
      rw [splitCh_append_sep (hns t (by simp))]
      rw [ih (by simp) (fun u hu => hns u (by simp [hu]))]

theorem replaceFirstCh_not_mem {a : Char} (b : Char) {l : List Char} (h : a ∉ l) :
    replaceFirstCh a b l = l := by
  induction l with
  | nil => rfl
  | cons c rest ih =>
    have hc : ¬ c = a := fun e => h (by simp [e])
    simp only [replaceFirstCh]
    rw [if_neg hc, ih (fun hm => h (by simp [hm]))]

theorem not_mem_joinSpaceCh {c : Char} (hc : c ≠ ' ') :
    ∀ ts : List (List Char), (∀ t ∈ ts, c ∉ t) → c ∉ joinSpaceCh ts := by
  intro ts
  induction ts with
  | nil => intro _; simp [joinSpaceCh]
  | cons t rest ih =>
    intro h
    cases rest with
    | nil => exact h t (by simp)
    | cons t2 r2 =>
      rw [show joinSpaceCh (t :: t2 :: r2) = t ++ ' ' :: joinSpaceCh (t2 :: r2) from rfl]
      intro hmem
      rcases List.mem_append.mp hmem with h1 | h2
      · exact h t (by simp) h1
      · rcases List.mem_cons.mp h2 with rfl | h3
        · exact hc rfl
        · exact ih (fun u hu => h u (by simp [hu])) h3

theorem map_mk_map_data (ts : List String) :
    (ts.map String.data).map String.mk = ts := by
  induction ts with
  | nil => rfl
  | cons t rest ih =>
    rw [List.map_cons, List.map_cons, ih]

theorem aset_append_of_keys {β : Type} {l : List (String × β)} {k : String}
    (h : ∀ kv ∈ l, kv.1 ≠ k) (v : β) : aset l k v = l ++ [(k, v)] := by
  induction l with
  | nil => rfl
  | cons kv rest ih =>
    have h1 : kv.1 ≠ k := h kv (by simp)
    simp only [aset]
    rw [if_neg (by simpa using h1), ih (fun kv2 hm => h kv2 (by simp [hm]))]
    rfl

theorem tokensToSortObj_go (ts : List String) :
    ∀ acc : List (String × Int),
      (ts.map (fun t => (encTok t).1)).Nodup →
      (∀ t ∈ ts, ∀ kv ∈ acc, kv.1 ≠ (encTok t).1) →
      ts.foldl (fun acc t =>
        if jsStartsWithDash t then aset acc (jsSlice1 t) (-1)
        else aset acc t 1) acc = acc ++ ts.map encTok := by
  induction ts with
  | nil => intro acc _ _; simp
  | cons t rest ih =>
    intro acc hnd hacc
    have hnew : ∀ kv ∈ acc, kv.1 ≠ (encTok t).1 :=
      fun kv hkv => hacc t (by simp) kv hkv
    have hstep : (if jsStartsWithDash t then aset acc (jsSlice1 t) (-1)
        else aset acc t 1) = acc ++ [encTok t] := by
      by_cases hd : jsStartsWithDash t
      · rw [if_pos hd, aset_append_of_keys
          (fun kv hkv => by simpa [encTok, hd] using hnew kv hkv) (-1)]
        simp [encTok, hd]
      · rw [if_neg hd, aset_append_of_keys
          (fun kv hkv => by simpa [encTok, hd] using hnew kv hkv) 1]
        simp [encTok, hd]
    rw [List.foldl_cons, hstep]
    rw [List.map_cons] at hnd
    have hnd2 := (List.nodup_cons.mp hnd).2
    have hhead := (List.nodup_cons.mp hnd).1
    rw [ih (acc ++ [encTok t]) hnd2 ?_]
    · rw [List.map_cons, List.append_assoc]
      rfl
    · intro t' ht' kv hkv
      rcases List.mem_append.mp hkv with h1 | h2
      · exact hacc t' (by simp [ht']) kv h1
      · rcases List.mem_cons.mp h2 with rfl | h3
        · intro e
          exact hhead (e ▸ List.mem_map_of_mem (fun u => (encTok u).1) ht')
        · simp at h3

theorem tokensToSortObj_distinct {ts : List String}
    (hnd : (ts.map (fun t => (encTok t).1)).Nodup) :
    tokensToSortObj ts = ts.map encTok := by
  have h := tokensToSortObj_go ts [] hnd (by simp)
  simpa [tokensToSortObj] using h

theorem applySortObj_eq (o : List (String × Int)) :
    ∀ q : QB, applySortObj q o =
      { q with orders := q.orders ++ o.map (fun kv => (kv.1, decide (kv.2 > 0))) } := by
  induction o with
  | nil => intro q; simp [applySortObj]
  | cons kv rest ih =>
    intro q
    show applySortObj (orderBy q kv.1 (kv.2 > 0)) rest = _
    rw [ih (orderBy q kv.1 (kv.2 > 0))]
    simp [orderBy, List.append_assoc]

theorem encTok_sortToken {cb : String × Bool} (h : cb.1.data.head? ≠ some '-') :
    encTok (sortToken cb) = (cb.1, if cb.2 then 1 else -1) := by
  cases hb : cb.2
  · have hdata : ("-" ++ cb.1).data = '-' :: cb.1.data := by
      rw [String.data_append]
      rfl
    simp only [sortToken, hb, if_false, Bool.false_eq_true]
    simp only [encTok, jsStartsWithDash, jsSlice1, hdata]
    simp
  · have hd : jsStartsWithDash cb.1 = false := by
      unfold jsStartsWithDash
      cases hcd : cb.1.data with
      | nil => rfl
      | cons d r =>
        have hne : d ≠ '-' := by
          intro e
          apply h
          rw [hcd, e]
          rfl
        simp [hne]
    simp [sortToken, hb, encTok, hd]

/-- Claim C5 (amended): the token-sequence shape and the signed-mapping
shape of a sort parameter always normalize to the identical ordered
(column, direction) sequence, and the space-separated string shape agrees
with them; a string using more than one comma separator does not, since
only the first comma is converted to a space, as the counterexample
shows. -/
theorem transformSort_shapes_agree (q : QB) (ord : List (String × Bool))
    (hne : ord ≠ [])
    (hnodup : (ord.map Prod.fst).Nodup)
    (hcols : ∀ cb ∈ ord, ' ' ∉ cb.1.data ∧ ',' ∉ cb.1.data ∧
      cb.1.data.head? ≠ some '-') :
    transformSort q (.str (joinSpace (ord.map sortToken))) =
      transformSort q (.arrS (ord.map sortToken)) ∧
    transformSort q (.arrS (ord.map sortToken)) =
      transformSort q (.objS (ord.map (fun cb => (cb.1, if cb.2 then 1 else -1)))) ∧
    (transformSort q (.objS (ord.map (fun cb =>
      (cb.1, if cb.2 then 1 else -1))))).orders = q.orders ++ ord := by
  have htokchars : ∀ cb ∈ ord, ' ' ∉ (sortToken cb).data ∧ ',' ∉ (sortToken cb).data := by
    intro cb hcb
    obtain ⟨hsp, hcm, _⟩ := hcols cb hcb
    unfold sortToken
    cases hb : cb.2
    · have hdata : ("-" ++ cb.1).data = '-' :: cb.1.data := by
        rw [String.data_append]
        rfl
      rw [if_neg (by simp)]
      rw [hdata]
      constructor
      · intro hm
        rcases List.mem_cons.mp hm with e | hm2
        · cases e
        · exact hsp hm2
      · intro hm
        rcases List.mem_cons.mp hm with e | hm2
        · cases e
        · exact hcm hm2
    · rw [if_pos rfl]
      exact ⟨hsp, hcm⟩
  have henc : ∀ cb ∈ ord, encTok (sortToken cb) = (cb.1, if cb.2 then 1 else -1) :=
    fun cb hcb => encTok_sortToken (hcols cb hcb).2.2
  have htokens : sortTokens (joinSpace (ord.map sortToken)) = ord.map sortToken := by
    unfold sortTokens joinSpace
    rw [show (String.mk (joinSpaceCh ((ord.map sortToken).map String.data))).data
        = joinSpaceCh ((ord.map sortToken).map String.data) from rfl]
    rw [replaceFirstCh_not_mem ' ' (not_mem_joinSpaceCh (by decide) _ ?hcm)]
    case hcm =>
      intro u hu
      obtain ⟨tok, htok, rfl⟩ := List.mem_map.mp hu
      obtain ⟨cb, hcb, rfl⟩ := List.mem_map.mp htok
      exact (htokchars cb hcb).2
    rw [splitCh_joinSpaceCh _ (by simpa using hne) ?hsp]
    case hsp =>
      intro u hu
      obtain ⟨tok, htok, rfl⟩ := List.mem_map.mp hu
      obtain ⟨cb, hcb, rfl⟩ := List.mem_map.mp htok
      exact (htokchars cb hcb).1
    exact map_mk_map_data _
  have hmapenc : (ord.map sortToken).map encTok =
      ord.map (fun cb => (cb.1, if cb.2 then 1 else -1)) := by
    rw [List.map_map]
    exact List.map_congr_left (fun cb hcb => henc cb hcb)
  have hndtok : ((ord.map sortToken).map (fun t => (encTok t).1)).Nodup := by
    rw [List.map_map]
    have : (ord.map (fun cb => (encTok (sortToken cb)).1)) = ord.map Prod.fst := by
      apply List.map_congr_left
      intro cb hcb
      rw [henc cb hcb]
    rw [show (fun t => (encTok t).1) ∘ sortToken = fun cb => (encTok (sortToken cb)).1
      from rfl]
    rw [this]
    exact hnodup
  have hobj : tokensToSortObj (ord.map sortToken) =
      ord.map (fun cb => (cb.1, if cb.2 then 1 else -1)) := by
    rw [tokensToSortObj_distinct hndtok, hmapenc]
  refine ⟨?_, ?_, ?_⟩
  · show applySortObj q (tokensToSortObj (sortTokens (joinSpace (ord.map sortToken))))
        = applySortObj q (tokensToSortObj (ord.map sortToken))
    rw [htokens]
  · show applySortObj q (tokensToSortObj (ord.map sortToken))
        = applySortObj q (ord.map (fun cb => (cb.1, if cb.2 then 1 else -1)))
    rw [hobj]
  · show (applySortObj q (ord.map (fun cb => (cb.1, if cb.2 then 1 else -1)))).orders
        = q.orders ++ ord
    rw [applySortObj_eq]
    have : (ord.map (fun cb => (cb.1, if cb.2 then 1 else -1))).map
        (fun kv => (kv.1, decide (kv.2 > 0))) = ord := by
      rw [List.map_map]
      have hd : ∀ b : Bool, decide ((if b then (1 : Int) else -1) > 0) = b := by
        intro b
        cases b <;> decide
      have hpt : ∀ cb ∈ ord,
          ((fun kv => (kv.1, decide (kv.2 > 0))) ∘
            (fun cb => (cb.1, if cb.2 then (1 : Int) else -1))) cb = cb := by
        intro cb _
        show (cb.1, decide ((if cb.2 then (1 : Int) else -1) > 0)) = cb
        rw [hd cb.2]
      rw [List.map_congr_left hpt]
      simp
    rw [this]

/-- Claim C5 witness: the three shapes of the order (a ascending,
b descending) all normalize to the same ORDER BY sequence. -/
theorem transformSort_shapes_agree_witness :
    transformSort (qbInit "t") (.str (joinSpace ([("a", true), ("b", false)].map sortToken))) =
      transformSort (qbInit "t") (.arrS ([("a", true), ("b", false)].map sortToken)) ∧
    transformSort (qbInit "t") (.arrS ([("a", true), ("b", false)].map sortToken)) =
      transformSort (qbInit "t") (.objS ([("a", true), ("b", false)].map
        (fun cb => (cb.1, if cb.2 then 1 else -1)))) ∧
    (transformSort (qbInit "t") (.objS ([("a", true), ("b", false)].map
      (fun cb => (cb.1, if cb.2 then 1 else -1))))).orders =
      (qbInit "t").orders ++ [("a", true), ("b", false)] :=
  transformSort_shapes_agree (qbInit "t") [("a", true), ("b", false)]
    (by decide) (by decide) (by decide)

end BQAdapter
